import Mathlib

/-!
Verification of the demeter backtesting core: a shallow embedding of the
squeeth vault market, the deribit option market, and the actuator loop,
with theorems checking the natural-language specification against the code.

Monetary amounts (Python `Decimal`) are embedded as rationals, timestamps as
integers.
-/

namespace Demeter

/-! ### Squeeth vault market (src/demeter/squeeth/market.py) -/

/-- A collateralized squeeth vault: id, ETH collateral, short oSQTH amount and
the optional deposited uniswap position (identified by a number; its token
amounts are supplied externally by the uniswap pool, which is outside the
core). Mirrors `Vault` as used by `SqueethMarket`. -/
structure Vault where
  id : ℕ
  collateral_amount : ℚ
  osqth_short_amount : ℚ
  uni_nft_id : Option ℕ
deriving DecidableEq

/-- `SqueethMarket.MIN_DEPOSIT_AMOUNT = Decimal("0.5")` (eth). -/
def MIN_DEPOSIT_AMOUNT : ℚ := 1/2

/-- `SqueethMarket.CR_NUMERATOR = Decimal(3)`. -/
def CR_NUMERATOR : ℚ := 3

/-- `SqueethMarket.CR_DENOMINATOR = Decimal(2)`. -/
def CR_DENOMINATOR : ℚ := 2

/-- `SqueethMarket._get_effective_collateral_in_eth`: base collateral plus the
value of the optionally deposited uniswap position.  `nftAmounts` stands for
the pair `(nft_weth_amount, nft_squeeth_amount)` (position amounts plus
pending fees) reported by the squeeth-eth pool, used only when the vault
holds a position. -/
def getEffectiveCollateralInEth (v : Vault) (nftAmounts : ℚ × ℚ)
    (norm_factor eth_price : ℚ) : ℚ :=
  let nft_weth_amount := if v.uni_nft_id.isSome then nftAmounts.1 else 0
  let nft_squeeth_amount := if v.uni_nft_id.isSome then nftAmounts.2 else 0
  let osqth_index_val_in_eth := nft_squeeth_amount * norm_factor / eth_price
  nft_weth_amount + osqth_index_val_in_eth + v.collateral_amount

/-- `SqueethMarket._get_vault_status`: returns `(is_above_water, is_dust)`.
A vault with zero short amount is `(True, False)`; otherwise the debt value in
eth is `short × norm_factor × eth_price` and the vault is above water iff
`collateral × CR_DENOMINATOR ≥ debt × CR_NUMERATOR`. -/
def getVaultStatus (v : Vault) (nftAmounts : ℚ × ℚ)
    (norm_factor eth_price : ℚ) : Bool × Bool :=
  if v.osqth_short_amount = 0 then (true, false)
  else
    let debt_value_in_eth := v.osqth_short_amount * norm_factor * eth_price
    let total_collateral := getEffectiveCollateralInEth v nftAmounts norm_factor eth_price
    (decide (total_collateral * CR_DENOMINATOR ≥ debt_value_in_eth * CR_NUMERATOR),
     decide (total_collateral < MIN_DEPOSIT_AMOUNT))

/-- `SqueethMarket._check_vault`: raises when `not is_safe`, then raises the
dust error when `not is_dust` (exactly as written in the source). -/
def checkVault (v : Vault) (nftAmounts : ℚ × ℚ)
    (norm_factor eth_price : ℚ) : Except String Unit :=
  let s := getVaultStatus v nftAmounts norm_factor eth_price
  if s.1 = false then .error "Vault collateral rate is not safe"
  else if s.2 = false then .error "Vault collateral is below dust"
  else .ok ()

/-- Outcome of the entry gate of `SqueethMarket.liquidate` (lines 331-340):
either the vault key does not exist, or the call raises
"Can not liquidate safe vault", or it proceeds into the debt-reduction and
liquidation steps. -/
inductive LiquidateGateResult where
  | vaultNotExist
  | raisedCanNotLiquidateSafeVault
  | proceedToReduceDebt
deriving DecidableEq

/-- The entry gate of `SqueethMarket.liquidate`: look up the vault, compute
`(is_safe, is_dust)` via `_get_vault_status`, and raise
"Can not liquidate safe vault" when `not is_safe`; otherwise proceed to
`_reduce_debt` and `_liquidate`. -/
def liquidateGate (vaults : List Vault) (key : ℕ) (nftAmounts : ℚ × ℚ)
    (norm_factor eth_price : ℚ) : LiquidateGateResult :=
  match vaults.find? (fun v => decide (v.id = key)) with
  | none => .vaultNotExist
  | some v =>
    if (getVaultStatus v nftAmounts norm_factor eth_price).1 = false then
      .raisedCanNotLiquidateSafeVault
    else
      .proceedToReduceDebt

/-! ### Deribit option market (src/demeter/deribit/market.py) -/

/-- A resting order book entry: a `[price, amount]` pair from the data. -/
structure OrderEntry where
  price : ℚ
  amount : ℚ
deriving DecidableEq

/-- A matched fill line item, `Order(price, amount)`. -/
structure Order where
  price : ℚ
  amount : ℚ
deriving DecidableEq

inductive OptionKind where
  | put
  | call
deriving DecidableEq

/-- One row of the current order book for a single instrument:
`InstrumentStatus` fields used by the trading and exercise code. -/
structure InstrumentStatus where
  state : String
  asks : List OrderEntry
  bids : List OrderEntry
  expiry_time : ℤ
  strike_price : ℚ
  kind : OptionKind
  mark_price : ℚ
  underlying_price : ℚ
deriving DecidableEq

/-- `OptionPosition`: a held option position. -/
structure OptionPosition where
  instrument_name : String
  expiry_time : ℤ
  strike_price : ℚ
  kind : OptionKind
  amount : ℚ
  avg_buy_price : ℚ
  buy_amount : ℚ
  avg_sell_price : ℚ
  sell_amount : ℚ
deriving DecidableEq

/-- Modelled from the spec: `DeribitTokenConfig` (demeter/deribit/_typing.py,
not under src/) carries the venue fee rates, the trade-amount granularity, the
fee precision and the minimum trade size of the settlement token. -/
structure DeribitTokenConfig where
  trade_fee_rate : ℚ
  delivery_fee_rate : ℚ
  min_trade_decimal : ℤ
  min_fee_decimal : ℤ
  min_amount : ℚ
deriving DecidableEq

/-- `DeribitOptionMarket.MAX_FEE_RATE = Decimal("0.125")`. -/
def MAX_FEE_RATE : ℚ := 1/8

/-- The ETH token configuration from `DeribitOptionMarket.TOKEN_CONFIGS`
(min_amount is the venue minimum of one contract at granularity `10^0`). -/
def ethConfig : DeribitTokenConfig :=
  { trade_fee_rate := 3/10000
    delivery_fee_rate := 15/100000
    min_trade_decimal := 0
    min_fee_decimal := -6
    min_amount := 1 }

/-- Modelled from the spec: `round_decimal` (demeter/deribit/helper.py, not
under src/) rounds a value to the given decimal exponent (the venue
precision). -/
def round_decimal (x : ℚ) (d : ℤ) : ℚ :=
  ((round (x / (10:ℚ)^d) : ℤ) : ℚ) * (10:ℚ)^d

/-- The relative tolerance `error = Decimal("0.001")` used by
`_find_available_orders`. -/
def price_error : ℚ := 1/1000

/-- `DeribitOptionMarket._find_available_orders`: keep the orders whose price
lies strictly within the ±0.1% band of the target price. -/
def findAvailableOrders (price : ℚ) (order_list : List OrderEntry) : List OrderEntry :=
  order_list.filter (fun x =>
    decide ((1 - price_error) * price < x.price) && decide (x.price < (1 + price_error) * price))

/-- `DeribitOptionMarket.__get_trade_amount`: clamp to the venue minimum and
round to the trade granularity. -/
def getTradeAmount (cfg : DeribitTokenConfig) (amount : ℚ) : ℚ :=
  if amount < cfg.min_amount then cfg.min_amount
  else round_decimal amount cfg.min_trade_decimal

/-- `DeribitOptionMarket.get_trade_fee`:
`round(min(trade_fee_rate × amount, MAX_FEE_RATE × total_premium))` at the
fee precision. -/
def get_trade_fee (cfg : DeribitTokenConfig) (amount total_premium : ℚ) : ℚ :=
  round_decimal (min (cfg.trade_fee_rate * amount) (MAX_FEE_RATE * total_premium))
    cfg.min_fee_decimal

/-- `DeribitOptionMarket.get_deliver_fee`: like the trade fee but at the
delivery fee rate. -/
def get_deliver_fee (cfg : DeribitTokenConfig) (amount total_premium : ℚ) : ℚ :=
  round_decimal (min (cfg.delivery_fee_rate * amount) (MAX_FEE_RATE * total_premium))
    cfg.min_fee_decimal

/-- `DeribitOptionMarket._check_transaction`: validate the instrument, the
minimum amount, resolve a usd price into a token price, and locate liquidity:
with a target price, restrict to the tolerance band and use only the first
matching level; without one, compare against the summed book. Returns the
(rounded) trade amount, the instrument and the resolved price. -/
def checkTransaction (cfg : DeribitTokenConfig) (instrument? : Option InstrumentStatus)
    (amount : ℚ) (price_in_token price_in_usd : Option ℚ) (is_buy : Bool) :
    Except String (ℚ × InstrumentStatus × Option ℚ) :=
  match instrument? with
  | none => Except.error "instrument is not in current orderbook"
  | some instrument =>
    if instrument.state ≠ "open" then Except.error "state of instrument is not open"
    else if amount < cfg.min_amount then Except.error "amount should greater than min amount"
    else
      let amount := getTradeAmount cfg amount
      let price_in_token :=
        match price_in_usd, price_in_token with
        | some usd, none => some (usd / instrument.underlying_price)
        | _, _ => price_in_token
      let available_orders := if is_buy then instrument.asks else instrument.bids
      match price_in_token with
      | some p =>
        match findAvailableOrders p available_orders with
        | [] => Except.error "does not have a order in price"
        | o :: _ =>
          if amount > o.amount then Except.error "insufficient order to buy"
          else Except.ok (amount, instrument, some o.price)
      | none =>
        let available_amount := (available_orders.map (fun x => x.amount)).sum
        if amount > available_amount then Except.error "insufficient order to buy"
        else Except.ok (amount, instrument, none)

/-- The sweep branch of `_deduct_order_amount` (no target price): consume
levels in list order, skipping empty ones, until the requested amount is
filled; a partially consumed level or a zero remainder stops the sweep. -/
def deductOrderSweep (amount_to_deduct : ℚ) (orders : List OrderEntry) :
    List OrderEntry × List Order :=
  match orders with
  | [] => ([], [])
  | o :: rest =>
    if o.amount = 0 then
      let r := deductOrderSweep amount_to_deduct rest
      (o :: r.1, r.2)
    else
      let should_deduct := min o.amount amount_to_deduct
      let o2 : OrderEntry := { o with amount := o.amount - should_deduct }
      if o2.amount > 0 ∨ amount_to_deduct - should_deduct = 0 then
        (o2 :: rest, [⟨o.price, should_deduct⟩])
      else
        let r := deductOrderSweep (amount_to_deduct - should_deduct) rest
        (o2 :: r.1, (⟨o.price, should_deduct⟩ : Order) :: r.2)

/-- `DeribitOptionMarket._deduct_order_amount`: with a target price, every
book entry at exactly that price is decremented by the trade amount and
yields a fill line; otherwise sweep the book in order. Returns the updated
book and the fill list. -/
def deductOrderAmount (amount : ℚ) (orders : List OrderEntry)
    (price_in_token : Option ℚ) : List OrderEntry × List Order :=
  match price_in_token with
  | some p =>
    (orders.map (fun o => if o.price = p then { o with amount := o.amount - amount } else o),
     (orders.filter (fun o => decide (o.price = p))).map (fun _ => (⟨p, amount⟩ : Order)))
  | none => deductOrderSweep amount orders

/-- `total_premium = sum(t.amount * t.price for t in order_list)`. -/
def premiumOf (order_list : List Order) : ℚ :=
  (order_list.map (fun t => t.amount * t.price)).sum

/-- Modelled from the spec: `Order.get_average_price`
(demeter/deribit/_typing.py, not under src/) is the volume-weighted average
price `(p1·a1 + p2·a2) / (a1 + a2)` of a list of fills. -/
def getAveragePrice (order_list : List Order) : ℚ :=
  let total := (order_list.map (fun o => o.amount)).sum
  if total = 0 then 0 else premiumOf order_list / total

/-- The mutable state touched by the deribit market operations: the position
table, the settlement-token balance in the broker, and the current order-book
row (the slice of data the trades write back into). -/
structure DeribitState where
  positions : List OptionPosition
  balance : ℚ
  book : List (String × InstrumentStatus)
deriving DecidableEq

def lookupBook (book : List (String × InstrumentStatus)) (name : String) :
    Option InstrumentStatus :=
  (book.find? (fun e => decide (e.1 = name))).map (fun e => e.2)

def findPosition (positions : List OptionPosition) (name : String) :
    Option OptionPosition :=
  positions.find? (fun p => decide (p.instrument_name = name))

/-- Write the mutated asks of one instrument back into the book row. -/
def writeBackAsks (book : List (String × InstrumentStatus)) (name : String)
    (asks : List OrderEntry) : List (String × InstrumentStatus) :=
  book.map (fun e => if e.1 = name then (e.1, { e.2 with asks := asks }) else e)

/-- Write the mutated bids of one instrument back into the book row. -/
def writeBackBids (book : List (String × InstrumentStatus)) (name : String)
    (bids : List OrderEntry) : List (String × InstrumentStatus) :=
  book.map (fun e => if e.1 = name then (e.1, { e.2 with bids := bids }) else e)

/-- Modelled from the spec: `Broker.subtract_from_balance` (demeter/broker,
not under src/) debits the settlement token and fails when the balance would
go negative (negative balances disallowed). -/
def subtractFromBalance (balance amount : ℚ) : Except String ℚ :=
  if balance - amount < 0 then Except.error "InsufficientBalance"
  else Except.ok (balance - amount)

/-- Modelled from the spec: `Broker.add_to_balance` always succeeds. -/
def addToBalance (balance amount : ℚ) : ℚ := balance + amount

/-- `DeribitOptionMarket.buy`: validate via `_check_transaction`, deduct the
asks, write the book back, debit `total_premium + fee`, then create or grow
the position. An error after the book write-back leaves the mutations applied,
so errors carry the state at the raise point. -/
def buy (cfg : DeribitTokenConfig) (st : DeribitState) (instrument_name : String)
    (amount : ℚ) (price_in_token price_in_usd : Option ℚ) :
    Except (String × DeribitState) (DeribitState × List Order) :=
  match checkTransaction cfg (lookupBook st.book instrument_name) amount
      price_in_token price_in_usd true with
  | .error e => .error (e, st)
  | .ok (amount, instrument, price_in_token) =>
    let dres := deductOrderAmount amount instrument.asks price_in_token
    let st1 : DeribitState := { st with book := writeBackAsks st.book instrument_name dres.1 }
    let total_premium := premiumOf dres.2
    let fee_amount := get_trade_fee cfg amount total_premium
    match subtractFromBalance st1.balance (total_premium + fee_amount) with
    | .error e => .error (e, st1)
    | .ok b =>
      let st2 : DeribitState := { st1 with balance := b }
      let average_price := getAveragePrice dres.2
      let positions :=
        match findPosition st2.positions instrument_name with
        | none => st2.positions ++
            [{ instrument_name := instrument_name
               expiry_time := instrument.expiry_time
               strike_price := instrument.strike_price
               kind := instrument.kind
               amount := amount
               avg_buy_price := average_price
               buy_amount := amount
               avg_sell_price := 0
               sell_amount := 0 }]
        | some _ =>
          st2.positions.map (fun p =>
            if p.instrument_name = instrument_name then
              { p with
                avg_buy_price := getAveragePrice
                  [⟨average_price, amount⟩, ⟨p.avg_buy_price, p.buy_amount⟩]
                buy_amount := p.buy_amount + amount
                amount := p.amount + amount }
            else p)
      .ok ({ st2 with positions := positions }, dres.2)

/-- `DeribitOptionMarket.sell`: validate via `_check_transaction`, deduct the
bids, write the book back, credit `total_premium − fee`, and only then look up
the position — raising "No such instrument position" after those mutations
when it is absent. -/
def sell (cfg : DeribitTokenConfig) (st : DeribitState) (instrument_name : String)
    (amount : ℚ) (price_in_token price_in_usd : Option ℚ) :
    Except (String × DeribitState) (DeribitState × List Order) :=
  match checkTransaction cfg (lookupBook st.book instrument_name) amount
      price_in_token price_in_usd false with
  | .error e => .error (e, st)
  | .ok (amount, instrument, price_in_token) =>
    let dres := deductOrderAmount amount instrument.bids price_in_token
    let st1 : DeribitState := { st with book := writeBackBids st.book instrument_name dres.1 }
    let total_premium := premiumOf dres.2
    let fee := get_trade_fee cfg amount total_premium
    let st2 : DeribitState := { st1 with balance := addToBalance st1.balance (total_premium - fee) }
    let average_price := getAveragePrice dres.2
    match findPosition st2.positions instrument_name with
    | none => .error ("No such instrument position", st2)
    | some position =>
      let position2 : OptionPosition :=
        { position with
          avg_sell_price := getAveragePrice
            [⟨average_price, amount⟩, ⟨position.avg_sell_price, position.sell_amount⟩]
          sell_amount := position.sell_amount + amount
          amount := position.amount - amount }
      let positions :=
        if position2.amount ≤ 0 then
          st2.positions.filter (fun p => !decide (p.instrument_name = instrument_name))
        else
          st2.positions.map (fun p =>
            if p.instrument_name = instrument_name then position2 else p)
      .ok ({ st2 with positions := positions }, dres.2)

/-- `DeribitOptionMarket._deliver_option`: compute the capped delivery fee,
the moneyness difference and the delivery amount
`amount × (price_diff / underlying_price)` rounded at the venue precision;
credit `delivery_amount − fee` only when it is positive. Returns the new
balance and the `(delivery_amount, fee)` pair when delivered. -/
def deliverOption (cfg : DeribitTokenConfig) (option_pos : OptionPosition)
    (instrument : InstrumentStatus) (is_call : Bool) (balance : ℚ) :
    ℚ × Option (ℚ × ℚ) :=
  let fee := get_deliver_fee cfg option_pos.amount
    (option_pos.amount * round_decimal instrument.mark_price cfg.min_fee_decimal)
  let price_diff :=
    if is_call then instrument.underlying_price - option_pos.strike_price
    else option_pos.strike_price - instrument.underlying_price
  let balance_to_add :=
    round_decimal (option_pos.amount * (price_diff / instrument.underlying_price))
      cfg.min_fee_decimal
  if balance_to_add ≤ fee then (balance, none)
  else (balance + (balance_to_add - fee), some (balance_to_add, fee))

/-- `DeribitOptionMarket.check_option_exercise`: for every position whose
expiry has passed, look up its instrument (raising if absent), deliver a put
in the money when `strike > underlying` and a call when `strike < underlying`,
and remove the position; unexpired positions are kept. Errors carry the
balance at the raise point. -/
def checkOptionExercise (cfg : DeribitTokenConfig) (now : ℤ)
    (book : List (String × InstrumentStatus)) (positions : List OptionPosition)
    (balance : ℚ) : Except (String × ℚ) (List OptionPosition × ℚ) :=
  match positions with
  | [] => .ok ([], balance)
  | pos :: rest =>
    if pos.expiry_time ≤ now then
      match lookupBook book pos.instrument_name with
      | none => .error ("position instrument is not in current orderbook", balance)
      | some instrument =>
        let balance1 :=
          if pos.kind = OptionKind.put ∧ pos.strike_price > instrument.underlying_price then
            (deliverOption cfg pos instrument false balance).1
          else if pos.kind = OptionKind.call ∧ pos.strike_price < instrument.underlying_price then
            (deliverOption cfg pos instrument true balance).1
          else balance
        match checkOptionExercise cfg now book rest balance1 with
        | .error e => .error e
        | .ok r => .ok r
    else
      match checkOptionExercise cfg now book rest balance with
      | .error e => .error e
      | .ok r => .ok (pos :: r.1, r.2)

/-! ### Actuator (src/demeter/core/actuator.py) -/

/-- The timestamp index of one registered Market's historical data. -/
structure MarketData where
  index : List ℤ
deriving DecidableEq

/-- The token price series: its timestamp index and the set of token columns. -/
structure PriceData where
  index : List ℤ
  tokens : List String
deriving DecidableEq

/-- The configuration `_check_backtest` examines: the registered markets in
registration order, the position of the default market (`MarketDict.default`,
demeter/broker, not under src/ — the market under the default key), the
optional price series, and the tokens held as broker assets. -/
structure BacktestConfig where
  markets : List MarketData
  default_market : ℕ
  token_prices : Option PriceData
  asset_tokens : List String
deriving DecidableEq

/-- `Actuator._check_backtest`: at least one market; prices set; every asset
token priced; identical row counts across markets; the price range covers the
default market's data range; and, when there is more than one row, identical
first-interval across markets and between the price series and the markets. -/
def checkBacktest (c : BacktestConfig) : Except String Unit :=
  if c.markets.length < 1 then Except.error "No market assigned"
  else
    match c.token_prices with
    | none => Except.error "token prices is not set"
    | some prices =>
      if ¬ (∀ t ∈ c.asset_tokens, t ∈ prices.tokens) then
        Except.error "Price of token has not set yet"
      else
        let data_length := c.markets.map (fun m => m.index.length)
        if ¬ (∀ l ∈ data_length, l = data_length.headD 0) then
          Except.error "data length among markets are not same"
        else
          let default_market_data := c.markets.getD c.default_market ⟨[]⟩
          if prices.index.headD 0 > default_market_data.index.headD 0
              ∨ prices.index.getLastD 0 < default_market_data.index.getLastD 0 then
            Except.error "Time range of price does not cover market data"
          else
            if 1 < data_length.headD 0 then
              let data_interval := c.markets.map (fun m => m.index.getD 1 0 - m.index.headD 0)
              if ¬ (∀ i ∈ data_interval, i = data_interval.headD 0) then
                Except.error "data interval among markets are not same"
              else
                let price_interval := prices.index.getD 1 0 - prices.index.headD 0
                if price_interval ≠ data_interval.headD 0 then
                  Except.error "price list interval and data interval are not same"
                else Except.ok ()
            else Except.ok ()

/-- The broker and market state visible to one tick, summarized by the net
value the account snapshot reads. The per-tick market and strategy mutations
act on it opaquely (the strategy is an external collaborator). -/
structure SimWorld where
  net_value : ℚ

/-- An entry of the action log (`BaseAction`): the recording timestamp. -/
structure Action0 where
  timestamp : ℤ

/-- A per-tick account snapshot (`AccountStatus`). -/
structure AccountStatus0 where
  timestamp : ℤ
  net_value : ℚ

/-- The strategy callbacks (external collaborator): the initial hook run once
before the loop, and the combined per-tick steps a-f of one loop iteration
(market refresh, triggers, on_bar, market update, after_bar); each returns the
mutated world and the actions it recorded. -/
structure StrategyModel where
  init_hook : SimWorld → SimWorld × List Action0
  tick : ℤ → SimWorld → SimWorld × List Action0

/-- Modelled from the spec: `Broker.get_account_status` (demeter/broker, not
under src/) builds the per-tick AccountStatus snapshot for the given
timestamp ("Compute and append the AccountStatus for t"). -/
def getAccountStatus (w : SimWorld) (t : ℤ) : AccountStatus0 :=
  ⟨t, w.net_value⟩

/-- The main loop of `Actuator.run` (lines 377-410): for each timestamp, run
the tick steps, extend the action log with the tick's actions and append
exactly one account snapshot for the timestamp. -/
def runLoop (tick : ℤ → SimWorld → SimWorld × List Action0) (timestamps : List ℤ)
    (w : SimWorld) (actions : List Action0) (statuses : List AccountStatus0) :
    SimWorld × List Action0 × List AccountStatus0 :=
  match timestamps with
  | [] => (w, actions, statuses)
  | t :: rest =>
    let r := tick t w
    runLoop tick rest r.1 (actions ++ r.2) (statuses ++ [getAccountStatus r.1 t])

/-- The mutable run state of the actuator: the persistent action log, the
account snapshot sequence and the finished flag. -/
structure ActuatorState where
  action_list : List Action0
  account_status_list : List AccountStatus0
  backtest_finished : Bool

/-- `Actuator.reset`: empty both logs and clear the finished flag. -/
def reset (_a : ActuatorState) : ActuatorState :=
  { action_list := [], account_status_list := [], backtest_finished := false }

/-- `Actuator.run`: reset, validate (aborting with the validation error and
the reset state when `_check_backtest` raises), run the strategy initial hook,
iterate the main loop over the first market's timestamp index, and mark the
run finished. -/
def run (c : BacktestConfig) (strat : StrategyModel) (w0 : SimWorld)
    (a : ActuatorState) : ActuatorState × Option String :=
  let a1 := reset a
  match checkBacktest c with
  | .error e => (a1, some e)
  | .ok _ =>
    let index := (c.markets.headD ⟨[]⟩).index
    let ini := strat.init_hook w0
    let r := runLoop strat.tick index ini.1 ini.2 []
    ({ action_list := r.2.1, account_status_list := r.2.2, backtest_finished := true }, none)

/-! ### Concrete fixtures for witnesses and counterexamples -/

/-- A strategy whose hooks record nothing and leave the world unchanged. -/
def trivialStrategy : StrategyModel :=
  { init_hook := fun w => (w, []), tick := fun _ w => (w, []) }

/-- A valid single-market configuration with three rows. -/
def c4cfg : BacktestConfig :=
  { markets := [⟨[1, 2, 3]⟩], default_market := 0
    token_prices := some ⟨[1, 2, 3], []⟩, asset_tokens := [] }

/-- The price series of the C6 counterexample: spans `[0, 10]`. -/
def c6prices : PriceData := ⟨[0, 10], ["usdc"]⟩

/-- Two markets of equal length and interval, where the price series spans the
default market `[0, 10]` but not the second market `[5, 15]`. -/
def c6cfg : BacktestConfig :=
  { markets := [⟨[0, 10]⟩, ⟨[5, 15]⟩], default_market := 0
    token_prices := some c6prices, asset_tokens := ["usdc"] }

/-- A two-level ask book at distinct prices 10 and 20 and a two-level bid
book at distinct prices 11 and 22, open state. -/
def c7instr : InstrumentStatus :=
  { state := "open", asks := [⟨10, 5⟩, ⟨20, 3⟩], bids := [⟨11, 4⟩, ⟨22, 1⟩], expiry_time := 0
    strike_price := 0, kind := OptionKind.call, mark_price := 0, underlying_price := 1 }

/-- An expired in-the-money put instrument row: underlying 100, mark 5. -/
def c9instr : InstrumentStatus :=
  { state := "open", asks := [], bids := [], expiry_time := 50
    strike_price := 120, kind := OptionKind.put, mark_price := 5, underlying_price := 100 }

/-- The order-book row holding the C9 instrument. -/
def c9book : List (String × InstrumentStatus) := [("P", c9instr)]

/-- A put position of 2 contracts at strike 120, expired at time 50. -/
def c9pos : OptionPosition :=
  { instrument_name := "P", expiry_time := 50, strike_price := 120
    kind := OptionKind.put, amount := 2, avg_buy_price := 1, buy_amount := 2
    avg_sell_price := 0, sell_amount := 0 }

/-- A bid-only open instrument for the C10 sell scenario. -/
def c10instr : InstrumentStatus :=
  { state := "open", asks := [], bids := [⟨9, 5⟩], expiry_time := 0
    strike_price := 0, kind := OptionKind.call, mark_price := 0, underlying_price := 1 }

/-- A state holding no position on instrument "B". -/
def c10st : DeribitState := { positions := [], balance := 100, book := [("B", c10instr)] }

/-- The state the failing C10 sell leaves behind: bids decremented, premium
minus fee already credited. -/
def c10errState : DeribitState :=
  { positions := [], balance := 589997/5000
    book := [("B", { c10instr with bids := [⟨9, 3⟩] })] }

/-- An open instrument with one ask and one bid level for the C8 trades. -/
def c8instrA : InstrumentStatus :=
  { state := "open", asks := [⟨10, 5⟩], bids := [⟨9, 5⟩], expiry_time := 200
    strike_price := 100, kind := OptionKind.call, mark_price := 10
    underlying_price := 1000 }

/-- An existing position of 3 contracts on instrument "A". -/
def c8posA : OptionPosition :=
  { instrument_name := "A", expiry_time := 200, strike_price := 100
    kind := OptionKind.call, amount := 3, avg_buy_price := 10, buy_amount := 3
    avg_sell_price := 0, sell_amount := 0 }

/-- The pre-trade state for the C8 buy. -/
def c8BuySt : DeribitState := { positions := [], balance := 100, book := [("A", c8instrA)] }

/-- The post-trade state of the C8 buy: 2 contracts at 10, premium 20,
fee 0.0006. -/
def c8BuyRes : DeribitState :=
  { positions := [⟨"A", 200, 100, OptionKind.call, 2, 10, 2, 0, 0⟩]
    balance := 399997/5000
    book := [("A", { c8instrA with asks := [⟨10, 3⟩] })] }

/-- The pre-trade state for the C8 sell. -/
def c8SellSt : DeribitState :=
  { positions := [c8posA], balance := 100, book := [("A", c8instrA)] }

/-- The post-trade state of the C8 sell: 2 contracts at 9, premium 18,
fee 0.0006. -/
def c8SellRes : DeribitState :=
  { positions := [⟨"A", 200, 100, OptionKind.call, 1, 10, 3, 9, 2⟩]
    balance := 589997/5000
    book := [("A", { c8instrA with bids := [⟨9, 3⟩] })] }

/-! ### Helper lemmas -/

/-- A successful debit returns exactly the difference. -/
theorem subtractFromBalance_ok {x y b : ℚ} (h : subtractFromBalance x y = Except.ok b) :
    b = x - y := by
  unfold subtractFromBalance at h
  split_ifs at h
  cases h
  rfl

theorem runLoop_statuses (tick : ℤ → SimWorld → SimWorld × List Action0) :
    ∀ (ts : List ℤ) (w : SimWorld) (acts : List Action0) (sts : List AccountStatus0),
      ((runLoop tick ts w acts sts).2.2).map (fun s => s.timestamp)
        = sts.map (fun s => s.timestamp) ++ ts := by
  intro ts
  induction ts with
  | nil => intro w acts sts; simp [runLoop]
  | cons t rest ih =>
    intro w acts sts
    simp [runLoop, ih, getAccountStatus]

theorem getVaultStatus_fst (v : Vault) (nftAmounts : ℚ × ℚ) (norm_factor eth_price : ℚ)
    (h : v.osqth_short_amount ≠ 0) :
    (getVaultStatus v nftAmounts norm_factor eth_price).1 = true ↔
      getEffectiveCollateralInEth v nftAmounts norm_factor eth_price * CR_DENOMINATOR ≥
        v.osqth_short_amount * norm_factor * eth_price * CR_NUMERATOR := by
  simp [getVaultStatus, h]

theorem getEffectiveCollateral_sub (v : Vault) (nftAmounts : ℚ × ℚ) (nf ep ε : ℚ) :
    getEffectiveCollateralInEth { v with collateral_amount := v.collateral_amount - ε }
        nftAmounts nf ep
      = getEffectiveCollateralInEth v nftAmounts nf ep - ε := by
  cases v with
  | mk i c s u => simp [getEffectiveCollateralInEth]; ring

/-! ### Claim theorems -/

/-- C1: the spec says `liquidate` raises when the vault is safe and proceeds
when it is unsafe. The code does the opposite: at an unsafe vault
(collateral 1, short 1, debt value 1, so 1×2 < 1×3) the gate raises
"Can not liquidate safe vault", and at a safe vault (collateral 2, short 1,
so 2×2 ≥ 1×3) it proceeds into debt reduction — the check is inverted and
contradicts its own error message. -/
theorem C1_liquidate_gate_inverted :
    liquidateGate [⟨1, 1, 1, none⟩] 1 (0, 0) 1 1
        = LiquidateGateResult.raisedCanNotLiquidateSafeVault ∧
    liquidateGate [⟨2, 2, 1, none⟩] 2 (0, 0) 1 1
        = LiquidateGateResult.proceedToReduceDebt := by
  constructor <;>
    norm_num [liquidateGate, List.find?, getVaultStatus, getEffectiveCollateralInEth,
      CR_NUMERATOR, CR_DENOMINATOR, MIN_DEPOSIT_AMOUNT]

/-- C2: the spec says the dust-vault error fires exactly when collateral is
below the 0.5 ETH minimum. The code raises "Vault collateral is below dust"
when `not is_dust`, i.e. exactly when the collateral is at or above the
minimum: a safe vault with collateral 2 is rejected as dust, while a sub-dust
vault with collateral 0.4 passes the check. -/
theorem C2_dust_check_inverted :
    checkVault ⟨1, 2, 1, none⟩ (0, 0) 1 1
        = Except.error "Vault collateral is below dust" ∧
    checkVault ⟨2, 2/5, 1/10, none⟩ (0, 0) 1 1 = Except.ok () := by
  constructor <;>
    norm_num [checkVault, getVaultStatus, getEffectiveCollateralInEth,
      CR_NUMERATOR, CR_DENOMINATOR, MIN_DEPOSIT_AMOUNT]

/-- C3: for a vault with non-zero short amount the safety predicate is exactly
`effective_collateral × 2 ≥ short × norm_factor × eth_price × 3`; a vault at
exactly 150% collateralization is safe, reducing its collateral by any
positive epsilon makes it unsafe, and a vault with zero short amount is
always safe. -/
theorem C3_safety_predicate (v : Vault) (nftAmounts : ℚ × ℚ)
    (norm_factor eth_price ε : ℚ)
    (hshort : v.osqth_short_amount ≠ 0) (hε : 0 < ε) :
    ((getVaultStatus v nftAmounts norm_factor eth_price).1 = true ↔
      getEffectiveCollateralInEth v nftAmounts norm_factor eth_price * 2 ≥
        v.osqth_short_amount * norm_factor * eth_price * 3) ∧
    (getEffectiveCollateralInEth v nftAmounts norm_factor eth_price * 2 =
        v.osqth_short_amount * norm_factor * eth_price * 3 →
      (getVaultStatus v nftAmounts norm_factor eth_price).1 = true ∧
      (getVaultStatus { v with collateral_amount := v.collateral_amount - ε }
          nftAmounts norm_factor eth_price).1 = false) ∧
    (∀ w : Vault, w.osqth_short_amount = 0 →
      (getVaultStatus w nftAmounts norm_factor eth_price).1 = true) := by
  have hiff := getVaultStatus_fst v nftAmounts norm_factor eth_price hshort
  rw [CR_NUMERATOR, CR_DENOMINATOR] at hiff
  refine ⟨hiff, ?_, ?_⟩
  · intro heq
    have hshort2 : ({ v with collateral_amount := v.collateral_amount - ε } : Vault).osqth_short_amount ≠ 0 := hshort
    have hiff2 := getVaultStatus_fst { v with collateral_amount := v.collateral_amount - ε }
      nftAmounts norm_factor eth_price hshort2
    rw [CR_NUMERATOR, CR_DENOMINATOR, getEffectiveCollateral_sub] at hiff2
    constructor
    · rw [hiff]
      linarith
    · rw [← Bool.not_eq_true, hiff2]
      have hshort_eq : ({ v with collateral_amount := v.collateral_amount - ε } : Vault).osqth_short_amount = v.osqth_short_amount := rfl
      rw [hshort_eq, ge_iff_le, not_le]
      linarith
  · intro w hw
    simp [getVaultStatus, hw]

/-- A vault with collateral 1.5, short 1 at norm factor 1 and eth price 1 sits
at exactly 150% collateralization: it is safe, and removing 1/3 collateral
makes it unsafe. -/
theorem C3_safety_predicate_witness :
    (getVaultStatus ⟨1, 3/2, 1, none⟩ (0, 0) 1 1).1 = true ∧
    (getVaultStatus ⟨1, 3/2 - 1/3, 1, none⟩ (0, 0) 1 1).1 = false :=
  (C3_safety_predicate ⟨1, 3/2, 1, none⟩ (0, 0) 1 1 (1/3)
    (by norm_num) (by norm_num)).2.1 (by norm_num [getEffectiveCollateralInEth])

/-- C4: when pre-run validation passes, the main loop appends exactly one
AccountStatus per timestamp of the market data index: the snapshot timestamps
equal the index, the lengths match, and strictly increasing market timestamps
yield strictly increasing snapshot timestamps. -/
theorem C4_account_status_per_tick (c : BacktestConfig) (strat : StrategyModel)
    (w0 : SimWorld) (a : ActuatorState)
    (hok : checkBacktest c = Except.ok ()) :
    ((run c strat w0 a).1.account_status_list.map (fun s => s.timestamp)
        = (c.markets.headD ⟨[]⟩).index) ∧
    (run c strat w0 a).1.account_status_list.length
        = (c.markets.headD ⟨[]⟩).index.length ∧
    (List.Chain' (fun x y => x < y) (c.markets.headD ⟨[]⟩).index →
      List.Chain' (fun x y => x < y)
        ((run c strat w0 a).1.account_status_list.map (fun s => s.timestamp))) := by
  have h := runLoop_statuses strat.tick (c.markets.headD ⟨[]⟩).index
    (strat.init_hook w0).1 (strat.init_hook w0).2 []
  simp only [List.map_nil, List.nil_append] at h
  have hrun : ((run c strat w0 a).1.account_status_list.map (fun s => s.timestamp))
      = (c.markets.headD ⟨[]⟩).index := by
    simp only [run, hok]
    exact h
  refine ⟨hrun, ?_, ?_⟩
  · have := congrArg List.length hrun
    simpa using this
  · intro hchain
    rw [hrun]
    exact hchain

/-- The valid three-row configuration passes validation and the run records
exactly the three snapshot timestamps 1, 2, 3. -/
theorem C4_account_status_per_tick_witness :
    checkBacktest c4cfg = Except.ok () ∧
    ((run c4cfg trivialStrategy ⟨0⟩ ⟨[], [], false⟩).1.account_status_list.map
      (fun s => s.timestamp)) = [1, 2, 3] := by
  have hok : checkBacktest c4cfg = Except.ok () := by rfl
  exact ⟨hok,
    (C4_account_status_per_tick c4cfg trivialStrategy ⟨0⟩ ⟨[], [], false⟩ hok).1⟩

/-- C5: when pre-run validation raises, the run aborts with the reset state:
no AccountStatus is ever appended and no action is ever recorded. -/
theorem C5_validation_failure_empty (c : BacktestConfig) (strat : StrategyModel)
    (w0 : SimWorld) (a : ActuatorState) (e : String)
    (herr : checkBacktest c = Except.error e) :
    run c strat w0 a
      = ({ action_list := [], account_status_list := [], backtest_finished := false },
         some e) := by
  simp [run, reset, herr]

/-- A configuration with no market fails validation, and a run from a dirty
prior state ends with both logs empty. -/
theorem C5_validation_failure_empty_witness :
    checkBacktest ⟨[], 0, none, []⟩ = Except.error "No market assigned" ∧
    run ⟨[], 0, none, []⟩ trivialStrategy ⟨0⟩ ⟨[⟨5⟩], [⟨5, 1⟩], true⟩
      = (⟨[], [], false⟩, some "No market assigned") := by
  have herr : checkBacktest ⟨[], 0, none, []⟩ = Except.error "No market assigned" := by rfl
  exact ⟨herr,
    C5_validation_failure_empty ⟨[], 0, none, []⟩ trivialStrategy ⟨0⟩
      ⟨[⟨5⟩], [⟨5, 1⟩], true⟩ "No market assigned" herr⟩

/-- C6 counterexample: validation succeeds on a configuration whose price
series does not span the second market's range — the claim says any such
mismatch must fail. The span check only examines the default market. -/
theorem C6_counterexample :
    checkBacktest c6cfg = Except.ok () ∧
    ∃ m ∈ c6cfg.markets, c6prices.index.getLastD 0 < m.index.getLastD 0 := by
  constructor
  · rfl
  · refine ⟨⟨[5, 15]⟩, ?_, ?_⟩
    · simp [c6cfg]
    · simp [c6prices]

/-- C6 (amended): validation succeeds iff a market is registered, prices are
set and cover every asset token, all markets have the first market's row
count, the price range covers the DEFAULT market's data range (not every
market's), and — when there is more than one row — the first-interval agrees
across markets and with the price series. -/
theorem C6_amended_validation (c : BacktestConfig) :
    checkBacktest c = Except.ok () ↔
      1 ≤ c.markets.length ∧
      ∃ prices, c.token_prices = some prices ∧
        (∀ t ∈ c.asset_tokens, t ∈ prices.tokens) ∧
        (∀ l ∈ c.markets.map (fun m => m.index.length),
            l = (c.markets.map (fun m => m.index.length)).headD 0) ∧
        (prices.index.headD 0 ≤ (c.markets.getD c.default_market ⟨[]⟩).index.headD 0 ∧
          (c.markets.getD c.default_market ⟨[]⟩).index.getLastD 0
            ≤ prices.index.getLastD 0) ∧
        (1 < (c.markets.map (fun m => m.index.length)).headD 0 →
          (∀ i ∈ c.markets.map (fun m => m.index.getD 1 0 - m.index.headD 0),
              i = (c.markets.map (fun m => m.index.getD 1 0 - m.index.headD 0)).headD 0) ∧
          prices.index.getD 1 0 - prices.index.headD 0
            = (c.markets.map (fun m => m.index.getD 1 0 - m.index.headD 0)).headD 0) := by
  rcases hp : c.token_prices with _ | prices
  · constructor
    · intro h
      simp only [checkBacktest, hp] at h
      split_ifs at h
    · rintro ⟨-, prices, hsome, -⟩
      cases hsome
  · constructor
    · intro h
      simp only [checkBacktest, hp] at h
      split_ifs at h with h1 h2 h3 h4 h5 h6 h7
      all_goals try cases h
      · push_neg at h4
        refine ⟨by omega, prices, rfl, h2, h3,
          ⟨h4.1, h4.2⟩, fun hone => ⟨h6, not_ne_iff.mp h7⟩⟩
      · push_neg at h4
        refine ⟨by omega, prices, rfl, h2, h3,
          ⟨h4.1, h4.2⟩, fun hone => absurd hone h5⟩
    · rintro ⟨h1, prices2, hsome, htok, hlen, ⟨hcov1, hcov2⟩, hint⟩
      injection hsome with hpe
      subst hpe
      simp only [checkBacktest, hp]
      rw [if_neg (by omega : ¬ c.markets.length < 1), if_neg (not_not.mpr htok),
        if_neg (not_not.mpr hlen), if_neg (by push_neg; exact ⟨hcov1, hcov2⟩)]
      by_cases hone : 1 < (c.markets.map (fun m => m.index.length)).headD 0
      · rw [if_pos hone, if_neg (not_not.mpr (hint hone).1),
          if_neg (not_ne_iff.mpr (hint hone).2)]
      · rw [if_neg hone]

/-- The two-market counterexample configuration satisfies every amended
condition, so the amended characterization accepts it. -/
theorem C6_amended_validation_witness :
    checkBacktest c6cfg = Except.ok () :=
  (C6_amended_validation c6cfg).mpr
    ⟨by simp [c6cfg], c6prices, rfl, by decide, by decide,
      ⟨by decide, by decide⟩, fun _ => ⟨by decide, by decide⟩⟩

/-- In a book whose prices are pairwise distinct, filtering by the price of a
member keeps exactly that member. -/
theorem filter_price_eq_of_nodup {l : List OrderEntry} {o : OrderEntry}
    (h : (l.map (fun e => e.price)).Nodup) (ho : o ∈ l) :
    l.filter (fun e => decide (e.price = o.price)) = [o] := by
  induction l with
  | nil => cases ho
  | cons hd tl ih =>
    simp only [List.map_cons, List.nodup_cons] at h
    rcases List.mem_cons.mp ho with rfl | hmem
    · have hnil : tl.filter (fun e => decide (e.price = o.price)) = [] := by
        rw [List.filter_eq_nil_iff]
        intro a ha
        simp only [decide_eq_true_eq]
        intro heq
        exact h.1 (heq ▸ List.mem_map_of_mem (fun e => e.price) ha)
      simp [List.filter_cons, hnil]
    · have hne : hd.price ≠ o.price := by
        intro heq
        exact h.1 (heq ▸ List.mem_map_of_mem (fun e => e.price) hmem)
      simp only [List.filter_cons, decide_eq_true_eq]
      rw [if_neg hne]
      exact ih h.2 hmem

/-- C7: for a buy or sell with an explicit target price (at the venue trade
granularity, on a book with distinct price levels): only resting orders
strictly within ±0.1% of the target are considered; an empty band raises; the
fill comes only from the first matching level, which must cover the whole
amount or the call raises the insufficient-liquidity error; on success exactly
the matched level is decremented by the filled amount. -/
theorem C7_target_price (cfg : DeribitTokenConfig) (instrument : InstrumentStatus)
    (amount p : ℚ)
    (hopen : instrument.state = "open")
    (hmin : ¬ amount < cfg.min_amount)
    (hgran : round_decimal amount cfg.min_trade_decimal = amount)
    (hnodup : (instrument.asks.map (fun o => o.price)).Nodup) :
    (∀ o ∈ findAvailableOrders p instrument.asks,
        (1 - price_error) * p < o.price ∧ o.price < (1 + price_error) * p) ∧
    (findAvailableOrders p instrument.asks = [] →
        checkTransaction cfg (some instrument) amount (some p) none true
          = Except.error "does not have a order in price") ∧
    (∀ o rest, findAvailableOrders p instrument.asks = o :: rest →
      (o.amount < amount →
        checkTransaction cfg (some instrument) amount (some p) none true
          = Except.error "insufficient order to buy") ∧
      (¬ o.amount < amount →
        checkTransaction cfg (some instrument) amount (some p) none true
          = Except.ok (amount, instrument, some o.price) ∧
        deductOrderAmount amount instrument.asks (some o.price)
          = (instrument.asks.map (fun e =>
                if e.price = o.price then { e with amount := e.amount - amount } else e),
             [⟨o.price, amount⟩]))) ∧
    ((instrument.bids.map (fun o => o.price)).Nodup →
      (∀ o ∈ findAvailableOrders p instrument.bids,
          (1 - price_error) * p < o.price ∧ o.price < (1 + price_error) * p) ∧
      (findAvailableOrders p instrument.bids = [] →
          checkTransaction cfg (some instrument) amount (some p) none false
            = Except.error "does not have a order in price") ∧
      (∀ o rest, findAvailableOrders p instrument.bids = o :: rest →
        (o.amount < amount →
          checkTransaction cfg (some instrument) amount (some p) none false
            = Except.error "insufficient order to buy") ∧
        (¬ o.amount < amount →
          checkTransaction cfg (some instrument) amount (some p) none false
            = Except.ok (amount, instrument, some o.price) ∧
          deductOrderAmount amount instrument.bids (some o.price)
            = (instrument.bids.map (fun e =>
                  if e.price = o.price then { e with amount := e.amount - amount } else e),
               [⟨o.price, amount⟩])))) := by
  have hamt : getTradeAmount cfg amount = amount := by
    rw [getTradeAmount, if_neg hmin, hgran]
  refine ⟨?_, ?_, ?_, ?_⟩
  · intro o ho
    have := (List.mem_filter.mp ho).2
    simpa [Bool.and_eq_true, decide_eq_true_eq] using this
  · intro hempty
    simp [checkTransaction, hopen, hamt, hmin, hempty]
  · intro o rest hfind
    have hchk : checkTransaction cfg (some instrument) amount (some p) none true
        = if amount > o.amount then Except.error "insufficient order to buy"
          else Except.ok (amount, instrument, some o.price) := by
      simp [checkTransaction, hopen, hamt, hmin, hfind]
    refine ⟨?_, ?_⟩
    · intro hlt
      rw [hchk, if_pos hlt]
    · intro hge
      have ho_mem : o ∈ instrument.asks :=
        List.mem_of_mem_filter (hfind ▸ List.mem_cons_self o rest)
    -- success: the check passes and the deduction touches only the matched level
      refine ⟨by rw [hchk, if_neg hge], ?_⟩
      simp only [deductOrderAmount]
      rw [filter_price_eq_of_nodup hnodup ho_mem]
      simp
  · intro hnodup_bids
    refine ⟨?_, ?_, ?_⟩
    · intro o ho
      have := (List.mem_filter.mp ho).2
      simpa [Bool.and_eq_true, decide_eq_true_eq] using this
    · intro hempty
      simp [checkTransaction, hopen, hamt, hmin, hempty]
    · intro o rest hfind
      have hchk : checkTransaction cfg (some instrument) amount (some p) none false
          = if amount > o.amount then Except.error "insufficient order to buy"
            else Except.ok (amount, instrument, some o.price) := by
        simp [checkTransaction, hopen, hamt, hmin, hfind]
      refine ⟨?_, ?_⟩
      · intro hlt
        rw [hchk, if_pos hlt]
      · intro hge
        have ho_mem : o ∈ instrument.bids :=
          List.mem_of_mem_filter (hfind ▸ List.mem_cons_self o rest)
        refine ⟨by rw [hchk, if_neg hge], ?_⟩
        simp only [deductOrderAmount]
        rw [filter_price_eq_of_nodup hnodup_bids ho_mem]
        simp

/-- A buy of 2 contracts at target price 10 fills from the first ask level
only, decremented from 5 to 3; a sell of 2 at target price 11 fills from the
first bid level only, decremented from 4 to 2. -/
theorem C7_target_price_witness :
    (checkTransaction ethConfig (some c7instr) 2 (some 10) none true
      = Except.ok (2, c7instr, some 10) ∧
    deductOrderAmount 2 c7instr.asks (some 10)
      = ([⟨10, 3⟩, ⟨20, 3⟩], [⟨10, 2⟩])) ∧
    (checkTransaction ethConfig (some c7instr) 2 (some 11) none false
      = Except.ok (2, c7instr, some 11) ∧
    deductOrderAmount 2 c7instr.bids (some 11)
      = ([⟨11, 2⟩, ⟨22, 1⟩], [⟨11, 2⟩])) := by
  have hb := ((C7_target_price ethConfig c7instr 2 10 rfl
      (by norm_num [ethConfig])
      (by norm_num [round_decimal, ethConfig])
      (by norm_num [c7instr])).2.2.1 ⟨10, 5⟩ []
      (by norm_num [findAvailableOrders, c7instr, price_error])).2
    (by norm_num)
  have hs := (((C7_target_price ethConfig c7instr 2 11 rfl
      (by norm_num [ethConfig])
      (by norm_num [round_decimal, ethConfig])
      (by norm_num [c7instr])).2.2.2
      (by norm_num [c7instr])).2.2 ⟨11, 4⟩ []
      (by norm_num [findAvailableOrders, c7instr, price_error])).2
    (by norm_num)
  refine ⟨⟨hb.1, ?_⟩, ⟨hs.1, ?_⟩⟩
  · rw [hb.2]
    norm_num [c7instr]
  · rw [hs.2]
    norm_num [c7instr]

/-- When the exercise sweep succeeds, the surviving position table is exactly
the unexpired positions, in order. -/
theorem checkOptionExercise_ok_filter (cfg : DeribitTokenConfig) (now : ℤ)
    (book : List (String × InstrumentStatus)) :
    ∀ (positions : List OptionPosition) (balance b : ℚ) (ps : List OptionPosition),
      checkOptionExercise cfg now book positions balance = Except.ok (ps, b) →
      ps = positions.filter (fun pos => decide (¬ pos.expiry_time ≤ now)) := by
  intro positions
  induction positions with
  | nil =>
    intro balance b ps h
    simp only [checkOptionExercise, Except.ok.injEq, Prod.mk.injEq] at h
    simp [← h.1]
  | cons pos rest ih =>
    intro balance b ps h
    by_cases hexp : pos.expiry_time ≤ now
    · simp only [checkOptionExercise, if_pos hexp] at h
      cases hlook : lookupBook book pos.instrument_name with
      | none => rw [hlook] at h; cases h
      | some instrument =>
        rw [hlook] at h
        dsimp only at h
        cases hrec : checkOptionExercise cfg now book rest
            (if pos.kind = OptionKind.put ∧ pos.strike_price > instrument.underlying_price then
              (deliverOption cfg pos instrument false balance).1
            else if pos.kind = OptionKind.call ∧ pos.strike_price < instrument.underlying_price then
              (deliverOption cfg pos instrument true balance).1
            else balance) with
        | error e => rw [hrec] at h; cases h
        | ok r =>
          rw [hrec] at h
          simp only [Except.ok.injEq] at h
          have hr : r = (ps, b) := h
          rw [hr] at hrec
          rw [List.filter_cons, if_neg (by simpa using hexp)]
          exact ih _ b ps hrec
    · simp only [checkOptionExercise, if_neg hexp] at h
      cases hrec : checkOptionExercise cfg now book rest balance with
      | error e => rw [hrec] at h; cases h
      | ok r =>
        rw [hrec] at h
        simp only [Except.ok.injEq, Prod.mk.injEq] at h
        rw [List.filter_cons, if_pos (by simpa using hexp)]
        rw [← h.1]
        have := ih balance r.2 r.1 (by rw [hrec])
        rw [this]

/-- C9: for every run of the exercise sweep, expired positions are removed
(the surviving table is the unexpired filter), and on a single expired
position with its instrument present: a put is exercised exactly when
strike > underlying and a call exactly when strike < underlying; the delivery
amount is `amount × (price_diff / underlying)`, rounded, a capped delivery
fee applies, and `delivery − fee` is credited only when the delivery amount
exceeds the fee. -/
theorem C9_exercise_settlement (cfg : DeribitTokenConfig) (now : ℤ)
    (book : List (String × InstrumentStatus)) :
    (∀ (positions : List OptionPosition) (balance b : ℚ) (ps : List OptionPosition),
      checkOptionExercise cfg now book positions balance = Except.ok (ps, b) →
      ps = positions.filter (fun pos => decide (¬ pos.expiry_time ≤ now))) ∧
    (∀ (pos : OptionPosition) (instrument : InstrumentStatus) (balance : ℚ),
      pos.expiry_time ≤ now →
      lookupBook book pos.instrument_name = some instrument →
      checkOptionExercise cfg now book [pos] balance =
        (let diff := if pos.kind = OptionKind.call
            then instrument.underlying_price - pos.strike_price
            else pos.strike_price - instrument.underlying_price
         let amt := round_decimal (pos.amount * (diff / instrument.underlying_price))
            cfg.min_fee_decimal
         let fee := get_deliver_fee cfg pos.amount
            (pos.amount * round_decimal instrument.mark_price cfg.min_fee_decimal)
         Except.ok (([] : List OptionPosition),
          if (pos.kind = OptionKind.put ∧ pos.strike_price > instrument.underlying_price)
              ∨ (pos.kind = OptionKind.call ∧ pos.strike_price < instrument.underlying_price)
          then (if fee < amt then balance + (amt - fee) else balance)
          else balance))) := by
  refine ⟨checkOptionExercise_ok_filter cfg now book, ?_⟩
  intro pos instrument balance hexp hlook
  simp only [checkOptionExercise, if_pos hexp, hlook, Except.ok.injEq, Prod.mk.injEq,
    true_and]
  cases hk : pos.kind with
  | put =>
    simp only [hk]
    by_cases hm : pos.strike_price > instrument.underlying_price
    · rw [if_pos (by simp [hm]), if_pos (by simp [hm])]
      simp only [deliverOption, Bool.false_eq_true, if_false]
      have hdiff : (if OptionKind.put = OptionKind.call then
            instrument.underlying_price - pos.strike_price
          else pos.strike_price - instrument.underlying_price)
          = pos.strike_price - instrument.underlying_price := by simp
      rw [hdiff]
      split_ifs with h1 h2 h2 <;> first | rfl | linarith
    · rw [if_neg (by simp [hm]), if_neg (by simp), if_neg (by simp [hm])]
  | call =>
    simp only [hk]
    by_cases hm : pos.strike_price < instrument.underlying_price
    · rw [if_neg (by simp), if_pos (by simp [hm]), if_pos (by simp [hm])]
      simp only [deliverOption, if_true]
      split_ifs with h1 h2 h2 <;> first | rfl | linarith
    · rw [if_neg (by simp), if_neg (by simp [hm]), if_neg (by simp [hm])]

/-- An expired put, 2 contracts at strike 120 over underlying 100, delivers
2 × 20/100 = 0.4 minus the 0.0003 delivery fee. -/
theorem C9_exercise_settlement_witness :
    checkOptionExercise ethConfig 100 c9book [c9pos] 10
      = Except.ok ([], 10 + (2/5 - 3/10000)) := by
  have hpc : (OptionKind.put = OptionKind.call) = False :=
    eq_false (fun hcc => OptionKind.noConfusion hcc)
  have h := (C9_exercise_settlement ethConfig 100 c9book).2 c9pos c9instr 10
    (by norm_num [c9pos]) rfl
  rw [h]
  norm_num [c9pos, c9instr, round_decimal, get_deliver_fee, ethConfig, MAX_FEE_RATE,
    round_eq, hpc]

/-- C8: the trade fee is `min(trade_fee_rate × amount, MAX_FEE_RATE ×
total_premium)` rounded at the fee precision; every successful buy debits
exactly `total_premium + fee` and every successful sell credits exactly
`total_premium − fee`, where `total_premium` sums the matched fills. -/
theorem C8_fee_and_balance (cfg : DeribitTokenConfig) :
    (∀ a premium, get_trade_fee cfg a premium =
        round_decimal (min (cfg.trade_fee_rate * a) (MAX_FEE_RATE * premium))
          cfg.min_fee_decimal) ∧
    (∀ (st : DeribitState) (name : String) (amount : ℚ) (pt pu : Option ℚ)
        (a : ℚ) (instrument : InstrumentStatus) (p : Option ℚ)
        (st2 : DeribitState) (os : List Order),
      checkTransaction cfg (lookupBook st.book name) amount pt pu true
          = Except.ok (a, instrument, p) →
      buy cfg st name amount pt pu = Except.ok (st2, os) →
      os = (deductOrderAmount a instrument.asks p).2 ∧
      st2.balance = st.balance - (premiumOf os + get_trade_fee cfg a (premiumOf os))) ∧
    (∀ (st : DeribitState) (name : String) (amount : ℚ) (pt pu : Option ℚ)
        (a : ℚ) (instrument : InstrumentStatus) (p : Option ℚ)
        (st2 : DeribitState) (os : List Order),
      checkTransaction cfg (lookupBook st.book name) amount pt pu false
          = Except.ok (a, instrument, p) →
      sell cfg st name amount pt pu = Except.ok (st2, os) →
      os = (deductOrderAmount a instrument.bids p).2 ∧
      st2.balance = st.balance + (premiumOf os - get_trade_fee cfg a (premiumOf os))) := by
  refine ⟨fun a premium => rfl, ?_, ?_⟩
  · intro st name amount pt pu a instrument p st2 os hcheck hbuy
    simp only [buy, hcheck] at hbuy
    cases hsub : subtractFromBalance st.balance
        (premiumOf (deductOrderAmount a instrument.asks p).2
          + get_trade_fee cfg a (premiumOf (deductOrderAmount a instrument.asks p).2)) with
    | error e => rw [hsub] at hbuy; cases hbuy
    | ok b =>
      rw [hsub] at hbuy
      dsimp only at hbuy
      simp only [Except.ok.injEq, Prod.mk.injEq] at hbuy
      have hos : os = (deductOrderAmount a instrument.asks p).2 := hbuy.2.symm
      have hbal : st2.balance = b := by rw [← hbuy.1]
      refine ⟨hos, ?_⟩
      rw [hbal, subtractFromBalance_ok hsub, hos]
  · intro st name amount pt pu a instrument p st2 os hcheck hsell
    simp only [sell, hcheck] at hsell
    cases hfp : findPosition st.positions name with
    | none => rw [hfp] at hsell; cases hsell
    | some position =>
      rw [hfp] at hsell
      dsimp only at hsell
      simp only [Except.ok.injEq, Prod.mk.injEq] at hsell
      refine ⟨hsell.2.symm, ?_⟩
      rw [← hsell.1, hsell.2]
      rfl

/-- A buy of 2 at ask 10 debits 20.0006; a sell of 2 at bid 9 credits
17.9994; both fees are min-capped and rounded at the micro precision. -/
theorem C8_fee_and_balance_witness :
    buy ethConfig c8BuySt "A" 2 none none = Except.ok (c8BuyRes, [⟨10, 2⟩]) ∧
    c8BuyRes.balance
      = c8BuySt.balance - (premiumOf [⟨10, 2⟩] + get_trade_fee ethConfig 2 (premiumOf [⟨10, 2⟩])) ∧
    sell ethConfig c8SellSt "A" 2 none none = Except.ok (c8SellRes, [⟨9, 2⟩]) ∧
    c8SellRes.balance
      = c8SellSt.balance + (premiumOf [⟨9, 2⟩] - get_trade_fee ethConfig 2 (premiumOf [⟨9, 2⟩])) := by
  have hcheckb : checkTransaction ethConfig (lookupBook c8BuySt.book "A") 2 none none true
      = Except.ok (2, c8instrA, none) := by
    norm_num [checkTransaction, lookupBook, c8BuySt, c8instrA, getTradeAmount,
      ethConfig, round_decimal, List.find?, round_eq]
  have hchecks : checkTransaction ethConfig (lookupBook c8SellSt.book "A") 2 none none false
      = Except.ok (2, c8instrA, none) := by
    norm_num [checkTransaction, lookupBook, c8SellSt, c8instrA, getTradeAmount,
      ethConfig, round_decimal, List.find?, round_eq]
  have hb : buy ethConfig c8BuySt "A" 2 none none = Except.ok (c8BuyRes, [⟨10, 2⟩]) := by
    rw [buy, hcheckb]
    norm_num [deductOrderAmount, deductOrderSweep, premiumOf, get_trade_fee,
      writeBackAsks, subtractFromBalance, findPosition, getAveragePrice,
      c8BuySt, c8BuyRes, c8instrA, ethConfig, MAX_FEE_RATE, round_decimal, round_eq,
      List.find?, DeribitState.mk.injEq]
  have hs : sell ethConfig c8SellSt "A" 2 none none = Except.ok (c8SellRes, [⟨9, 2⟩]) := by
    rw [sell, hchecks]
    norm_num [deductOrderAmount, deductOrderSweep, premiumOf, get_trade_fee,
      writeBackBids, addToBalance, findPosition, getAveragePrice,
      c8SellSt, c8SellRes, c8posA, c8instrA, ethConfig, MAX_FEE_RATE, round_decimal,
      round_eq, List.find?, DeribitState.mk.injEq, OptionPosition.mk.injEq]
  exact ⟨hb,
    ((C8_fee_and_balance ethConfig).2.1 c8BuySt "A" 2 none none 2 c8instrA none
      c8BuyRes [⟨10, 2⟩] hcheckb hb).2,
    hs,
    ((C8_fee_and_balance ethConfig).2.2 c8SellSt "A" 2 none none 2 c8instrA none
      c8SellRes [⟨9, 2⟩] hchecks hs).2⟩

/-- C10: a sell on an instrument with no open position raises the no-position
error only after the bids have been decremented, the book written back and
`total_premium − fee` credited: the error state carries those mutations. -/
theorem C10_sell_no_position_after_mutation (cfg : DeribitTokenConfig)
    (st : DeribitState) (name : String) (amount : ℚ)
    (price_in_token price_in_usd : Option ℚ) (a : ℚ)
    (instrument : InstrumentStatus) (p : Option ℚ)
    (hcheck : checkTransaction cfg (lookupBook st.book name) amount price_in_token
        price_in_usd false = Except.ok (a, instrument, p))
    (hnopos : findPosition st.positions name = none) :
    sell cfg st name amount price_in_token price_in_usd
      = Except.error ("No such instrument position",
          { positions := st.positions
            balance := st.balance +
              (premiumOf (deductOrderAmount a instrument.bids p).2 -
                get_trade_fee cfg a (premiumOf (deductOrderAmount a instrument.bids p).2))
            book := writeBackBids st.book name (deductOrderAmount a instrument.bids p).1 }) := by
  simp only [sell, hcheck]
  rw [hnopos]
  dsimp only [addToBalance]

/-- A sell of 2 with no position on "B" raises the no-position error while
leaving the bid level decremented from 5 to 3 and the balance credited with
premium 18 minus fee 0.0006. -/
theorem C10_sell_no_position_after_mutation_witness :
    sell ethConfig c10st "B" 2 none none
      = Except.error ("No such instrument position", c10errState) := by
  have hcheck : checkTransaction ethConfig (lookupBook c10st.book "B") 2 none none false
      = Except.ok (2, c10instr, none) := by
    norm_num [checkTransaction, lookupBook, c10st, c10instr, getTradeAmount,
      ethConfig, round_decimal, round_eq, List.find?]
  have h := C10_sell_no_position_after_mutation ethConfig c10st "B" 2 none none 2
    c10instr none hcheck rfl
  rw [h]
  norm_num [c10st, c10instr, c10errState, deductOrderAmount, deductOrderSweep,
    premiumOf, get_trade_fee, writeBackBids, ethConfig, MAX_FEE_RATE, round_decimal,
    round_eq, DeribitState.mk.injEq]

end Demeter
